import Mathlib

/-!
Shallow embedding of the `deno-workerpool` library.

Embedded source files:
* `src/unnamed/part_003` — the `Runner` wrapper class and `RunnerExecutionError`;
* `src/Workerpool.ts` (first version in the file, lines 1-310) — the
  `Workerpool` dispatcher: constructor option handling, `start` / `pause` /
  `enqueue`, the dequeue loop, `#disposeIdleRunners` and `#getRunner`.

The dispatcher is modelled as a small-step transition system: each
transition is one synchronous segment of the TypeScript code (the code runs
on a single JS thread, so segments between `await` suspension points are
atomic).  The caller-supplied queue is modelled as the in-memory FIFO list
queue from the repository's README and test suite.
-/

/-- A value thrown in JavaScript: either an `Error` instance (carrying
`message` and `name`) or any other value, modelled by a numeric tag. -/
inductive Thrown where
  | errorVal (message : String) (name : String)
  | nonError (tag : Nat)
  deriving DecidableEq, Repr

/-- Behaviour of one call to the executor's `execute` for a given payload:
it either resolves with a result or throws. -/
inductive ExecBehavior (R : Type) where
  | ok (r : R)
  | throws (t : Thrown)
  deriving DecidableEq, Repr

/-- Behaviour of the executor's optional `onSuccess` hook: absent,
returning normally, or throwing. -/
inductive SuccessHookBehavior where
  | absent
  | ok
  | throws (t : Thrown)
  deriving DecidableEq, Repr

/-- Behaviour of the executor's optional `onFailure` hook: absent,
returning a boolean or nothing (`void`), or throwing. -/
inductive FailureHookBehavior where
  | absent
  | returns (b : Option Bool)
  | throws (t : Thrown)
  deriving DecidableEq, Repr

/-- The observable behaviour of the wrapped executor during one
`Runner.execute` call. -/
structure Behavior (R : Type) where
  execute : ExecBehavior R
  onSuccess : SuccessHookBehavior
  onFailure : FailureHookBehavior
  deriving DecidableEq, Repr

/-- State of a `Runner` instance (src/unnamed/part_003): the private
counters (the source spells the field `#executionnCount`), the busy flag
and the factory name. -/
structure Runner where
  executionnCount : Nat := 0
  successCount : Nat := 0
  failureCount : Nat := 0
  busy : Bool := false
  name : String
  deriving DecidableEq, Repr

/-- How one `Runner.execute` call settles, seen from the dispatcher:
resolves with a result; rejects with the busy-guard `Error` (thrown before
the `try` block, so the finalizer does not run); rejects with a
`RunnerExecutionError` (message, kind/`name`, retryable flag); or rejects
with a value propagated unwrapped. -/
inductive ExecOutcome (R : Type) where
  | success (r : R)
  | illegalState
  | runnerExecutionError (message : String) (kind : String) (retryable : Bool)
  | raised (t : Thrown)
  deriving DecidableEq, Repr

/-- The `catch (error)` block of `Runner.execute` (src/unnamed/part_003
lines 59-72): non-`Error` values are rethrown unwrapped; for `Error`s the
failure counter is bumped, the `onFailure` hook is consulted and a
`RunnerExecutionError` with `retryable ?? true` is thrown.  A throwing
hook propagates its own error out of the catch block. -/
def Runner.catchBlock {R : Type} (b : Behavior R) (t : Thrown) (st : Runner) :
    ExecOutcome R × Runner :=
  match t with
  | .nonError tag => (.raised (.nonError tag), st)
  | .errorVal msg nm =>
    let st := { st with failureCount := st.failureCount + 1 }
    match b.onFailure with
    | .absent => (.runnerExecutionError msg nm true, st)
    | .returns ob => (.runnerExecutionError msg nm (ob.getD true), st)
    | .throws t2 => (.raised t2, st)

/-- The `Runner.execute` method (src/unnamed/part_003 lines 44-77).  The
busy guard throws before the `try`, leaving the state untouched; otherwise
the `finally` clause increments `#executionnCount` and clears `#busy` on
every exit path.  A throw from `onSuccess` lands in the same `catch` block
as a throw from `execute` itself. -/
def Runner.execute {R : Type} (b : Behavior R) (st : Runner) :
    ExecOutcome R × Runner :=
  if st.busy then (.illegalState, st)
  else
    let st1 := { st with busy := true }
    let res :=
      match b.execute with
      | .ok r =>
        let st2 := { st1 with successCount := st1.successCount + 1 }
        match b.onSuccess with
        | .throws t => Runner.catchBlock b t st2
        | _ => (.success r, st2)
      | .throws t => Runner.catchBlock b t st1
    (res.1, { res.2 with executionnCount := res.2.executionnCount + 1, busy := false })

/-- Configuration options accepted by the `Workerpool` constructor
(src/Workerpool.ts lines 11-73): `workers` is the list of registered
executor class names; a numeric option left `none` is `undefined` in JS. -/
structure WorkerpoolOptions where
  workers : List String
  concurrency : Option Nat := none
  maximumRetries : Option Nat := none
  maximumTaskPerRunner : Option Nat := none
  deriving DecidableEq, Repr

/-- Effective dispatcher configuration after the constructor ran:
`maximumTaskPerRunner = none` models the default `Infinity`. -/
structure PoolConfig where
  concurrency : Nat := 10
  maximumRetries : Nat := 0
  maximumTaskPerRunner : Option Nat := none
  deriving DecidableEq, Repr

/-- JavaScript truthiness of `options.x` for a numeric option: `undefined`
and `0` are falsy. -/
def truthyOpt : Option Nat → Bool
  | none => false
  | some v => v != 0

/-- The `Workerpool` constructor (src/Workerpool.ts lines 92-108): each
numeric option overrides its default only when truthy (`if
(options.concurrency) ...`), and the worker classes are registered under
their names. -/
def Workerpool.constructorF (o : WorkerpoolOptions) : PoolConfig × List String :=
  let cfg : PoolConfig := {}
  let cfg := if truthyOpt o.concurrency then
      { cfg with concurrency := o.concurrency.getD 0 } else cfg
  let cfg := if truthyOpt o.maximumRetries then
      { cfg with maximumRetries := o.maximumRetries.getD 0 } else cfg
  let cfg := if truthyOpt o.maximumTaskPerRunner then
      { cfg with maximumTaskPerRunner := o.maximumTaskPerRunner } else cfg
  (cfg, o.workers)

/-- A task record (src/Task.ts): a name selecting the executor factory, an
opaque payload, and the attempt counter mutated by the dispatcher. -/
structure TaskM where
  name : String
  payload : Nat
  executionCount : Nat
  deriving DecidableEq, Repr

/-- A live runner as seen by the dispatcher's `#runners` set: the `Runner`
instance's counters and busy flag plus an identity `rid` (JS object
identity; the set iterates in insertion order) and a ghost `idleSince`
timestamp recording when the runner last became idle (the source does not
track this; it is used only to state properties about idle recency). -/
structure RunnerM where
  rid : Nat
  name : String
  busy : Bool
  executionnCount : Nat
  successCount : Nat
  failureCount : Nat
  idleSince : Nat
  deriving DecidableEq, Repr

/-- A fresh runner created by `#getRunner` from the factory registered
under `name` (src/Workerpool.ts lines 287-292). -/
def newRunner (nid : Nat) (name : String) (clock : Nat) : RunnerM :=
  { rid := nid, name := name, busy := false, executionnCount := 0,
    successCount := 0, failureCount := 0, idleSince := clock }

/-- Result alternatives of `#getRunner`: an existing idle runner, a newly
created one, the `No executable is named ...` throw, or `undefined`. -/
inductive GRRes where
  | found (r : RunnerM)
  | created (r : RunnerM)
  | unknownExecutor
  | noRunner
  deriving DecidableEq, Repr

/-- Full outcome of a `#getRunner` call: its result, the updated live set,
the runners it disposed (evicted), and the next fresh identity. -/
structure GROut where
  result : GRRes
  runners : List RunnerM
  disposedNow : List RunnerM
  nextId : Nat
  deriving DecidableEq, Repr

/-- The body of `#getRunner` (src/Workerpool.ts lines 272-309), written
with a fuel parameter to make the recursion structural; `getRunner` below
supplies fuel exceeding the list length, which is never exhausted because
each recursive call removes one runner from the list.  Branches, in source
order: reuse the first idle runner with a matching name; below the
concurrency cap, instantiate from the registered factory (throwing when
the name is unregistered); at the cap, delete and dispose the first idle
runner of a different name (JS `Set` iteration order = insertion order)
and recurse; otherwise return `undefined`. -/
def getRunnerAux (facts : List String) (cap nid clock : Nat) (name : String) :
    Nat → List RunnerM → GROut
  | 0, runners => ⟨.noRunner, runners, [], nid⟩
  | fuel + 1, runners =>
    let idleRunners := runners.filter (fun r => !r.busy)
    match idleRunners.find? (fun r => r.name == name) with
    | some r => ⟨.found r, runners, [], nid⟩
    | none =>
      if runners.length < cap then
        if facts.contains name then
          ⟨.created (newRunner nid name clock), runners ++ [newRunner nid name clock],
            [], nid + 1⟩
        else
          ⟨.unknownExecutor, runners, [], nid⟩
      else
        match idleRunners.find? (fun r => r.name != name) with
        | some ir =>
          let sub := getRunnerAux facts cap nid clock name fuel
            (runners.filter (fun x => x.rid ≠ ir.rid))
          ⟨sub.result, sub.runners, ir :: sub.disposedNow, sub.nextId⟩
        | none => ⟨.noRunner, runners, [], nid⟩

/-- `Workerpool.#getRunner` (src/Workerpool.ts lines 272-309). -/
def getRunner (facts : List String) (cap nid clock : Nat)
    (runners : List RunnerM) (name : String) : GROut :=
  getRunnerAux facts cap nid clock name (runners.length + 1) runners

/-- The three pool lifecycle states (src/Workerpool.ts line 80). -/
inductive WState where
  | running
  | draining
  | drained
  deriving DecidableEq, Repr

/-- One dispatcher instance together with its environment: the private
fields of `Workerpool`, the in-memory FIFO queue supplied by the caller
(as in the repository's README and tests), the in-flight executions
(task after increment, executing runner's rid), and two ghost logs:
`disposed` snapshots every runner whose `dispose()` was invoked, at the
moment of disposal, and `finished` logs every `onTaskFinished` call as
(isFailure, task). -/
structure Pool where
  cfg : PoolConfig
  factories : List String
  active : Bool
  state : WState
  dequeueActive : Bool
  nextId : Nat
  clock : Nat
  runners : List RunnerM
  queue : List TaskM
  inFlight : List (TaskM × Nat)
  disposed : List RunnerM
  finished : List (Bool × TaskM)
  deriving DecidableEq, Repr

/-- A freshly constructed pool: inactive, `drained`, with no runners and
an empty queue (src/Workerpool.ts lines 83-90). -/
def initPool (cfg : PoolConfig) (facts : List String) : Pool :=
  { cfg := cfg, factories := facts, active := false, state := .drained,
    dequeueActive := false, nextId := 0, clock := 0, runners := [],
    queue := [], inFlight := [], disposed := [], finished := [] }

/-- `Workerpool.#disposeIdleRunners` (src/Workerpool.ts lines 257-270):
delete every idle runner from the live set, dispose each of them, and
enter `drained` when the live set ends up empty. -/
def disposeIdleRunnersF (p : Pool) : Pool :=
  let idle := p.runners.filter (fun r => !r.busy)
  let p := { p with runners := p.runners.filter (fun r => r.busy),
                    disposed := p.disposed ++ idle }
  if p.runners.length = 0 then { p with state := .drained } else p

/-- `Workerpool.start` (src/Workerpool.ts lines 129-139) followed by the
synchronous head of `#startDequeue`: mark active, set state `running`,
raise the single-chain dequeue flag. -/
def startF (p : Pool) : Pool :=
  { p with active := true, state := .running, dequeueActive := true }

/-- `Workerpool.pause` (src/Workerpool.ts lines 147-155): mark inactive,
enter `draining`, and immediately dispose the currently idle runners. -/
def pauseF (p : Pool) : Pool :=
  disposeIdleRunnersF { p with active := false, state := .draining }

/-- Spare-capacity test in `Workerpool.enqueue` (src/Workerpool.ts lines
172-176): fewer live runners than the cap, or some idle runner. -/
def hasCapacity (p : Pool) : Bool :=
  decide (p.runners.length < p.cfg.concurrency) || p.runners.any (fun r => !r.busy)

/-- The shared tail of `Workerpool.enqueue`: append the task to the
caller's queue, then, when the pool is active and has spare capacity, run
`#startDequeue` (which only acts when no dequeue chain is live, and sets
state back to `running`).  Used directly by the retry path, which passes
the task with its `executionCount` preserved. -/
def reenqueueF (p : Pool) (t : TaskM) : Pool :=
  let p := { p with queue := p.queue ++ [t] }
  if p.active && hasCapacity p then
    if p.dequeueActive then p
    else { p with dequeueActive := true, state := .running }
  else p

/-- `Workerpool.enqueue` for external callers (src/Workerpool.ts lines
164-184): a task arrives with `executionCount` defaulted to 0. -/
def enqueueF (p : Pool) (t : TaskM) : Pool :=
  reenqueueF p { t with executionCount := 0 }

/-- One invocation of `Workerpool.#dequeue` (src/Workerpool.ts lines
195-255) up to the hand-off of an execution.  Inactive: clear the chain
flag and, when draining, dispose idle runners.  No task: clear the chain
flag and enter `drained` when every live runner is idle.  Otherwise
resolve a runner: on the unknown-executor throw the chain dies (the task
stays popped); with no runner available the task is pushed back via the
caller's `enqueue`; otherwise bump `task.executionCount`, mark the runner
busy and record the in-flight execution. -/
def dequeueF (p : Pool) : Pool :=
  let p := { p with clock := p.clock + 1 }
  if !p.active then
    let p := { p with dequeueActive := false }
    if p.state = .draining then disposeIdleRunnersF p else p
  else
    match p.queue with
    | [] =>
      let p := { p with dequeueActive := false }
      if p.runners.all (fun r => !r.busy) then { p with state := .drained } else p
    | t :: rest =>
      let p := { p with queue := rest }
      let out := getRunner p.factories p.cfg.concurrency p.nextId p.clock p.runners t.name
      match out.result with
      | .unknownExecutor =>
        { p with runners := out.runners, disposed := p.disposed ++ out.disposedNow,
                 nextId := out.nextId }
      | .noRunner => { p with queue := rest ++ [t] }
      | .found r | .created r =>
        let t2 := { t with executionCount := t.executionCount + 1 }
        { p with
            runners := out.runners.map (fun x =>
              if x.rid = r.rid then { x with busy := true } else x),
            disposed := p.disposed ++ out.disposedNow,
            nextId := out.nextId,
            inFlight := p.inFlight ++ [(t2, r.rid)] }

/-- How an in-flight execution settles, from the dispatcher's point of
view: the runner's promise resolves, or rejects with a
`RunnerExecutionError` whose retryable flag is given. -/
inductive CompOutcome where
  | success
  | failure (retryable : Bool)
  deriving DecidableEq, Repr

/-- The retry test in `#dequeue`'s rejection handler (src/Workerpool.ts
lines 233-237): the error is a retryable `RunnerExecutionError` and the
task's (already incremented) `executionCount` is strictly below
`maximumRetries`. -/
def retryDecision (mr count : Nat) (retryable : Bool) : Bool :=
  retryable && decide (count < mr)

/-- Effect of `Runner.execute`'s `finally` (and success/failure counter)
on the live set when the execution on runner `rid` settles: the matching
runner's counters are updated and its busy flag cleared (`idleSince` is
the ghost timestamp). -/
def settleRunners (runners : List RunnerM) (rid clock : Nat) (oc : CompOutcome) :
    List RunnerM :=
  runners.map (fun r =>
    if r.rid = rid then
      let r := match oc with
        | .success => { r with successCount := r.successCount + 1 }
        | .failure _ => { r with failureCount := r.failureCount + 1 }
      { r with executionnCount := r.executionnCount + 1, busy := false,
               idleSince := clock }
    else r)

/-- The `.then` handlers of the dispatch (src/Workerpool.ts lines
229-245): on success `onTaskFinished(null, result, ...)`; on failure
either a silent re-`enqueue` (retryable within budget) or
`onTaskFinished(error, null, ...)`. -/
def finishOrRetry (p1 : Pool) (t : TaskM) (oc : CompOutcome) : Pool :=
  match oc with
  | .success => { p1 with finished := p1.finished ++ [(false, t)] }
  | .failure rb =>
    if retryDecision p1.cfg.maximumRetries t.executionCount rb then
      reenqueueF p1 t
    else { p1 with finished := p1.finished ++ [(true, t)] }

/-- The `.finally` handler of the dispatch (src/Workerpool.ts lines
246-252): when the runner's `executionCount` has reached
`maximumTaskPerRunner`, delete it from the live set.  The source does not
call `dispose()` here. -/
def retireF (q : Pool) (rid : Nat) : Pool :=
  match q.runners.find? (fun r => r.rid == rid) with
  | some r =>
    match q.cfg.maximumTaskPerRunner with
    | some m =>
      if m ≤ r.executionnCount then
        { q with runners := q.runners.filter (fun x => x.rid ≠ rid) }
      else q
    | none => q
  | none => q

/-- Completion of the i-th in-flight execution (src/Workerpool.ts lines
227-252 together with `Runner.execute`'s `finally`): settle the runner's
state, run the `.then` handlers, then the `.finally` retirement check. -/
def completeF (p : Pool) (i : Nat) (oc : CompOutcome) : Pool :=
  let p := { p with clock := p.clock + 1 }
  match p.inFlight[i]? with
  | none => p
  | some (t, rid) =>
    let p1 := { p with runners := settleRunners p.runners rid p.clock oc,
                       inFlight := p.inFlight.eraseIdx i }
    retireF (finishOrRetry p1 t oc) rid

/-- One atomic step of the dispatcher: a public API call (`start`,
`pause`, `enqueue`), one `#dequeue` invocation (triggered by
`#startDequeue`, by the tail of a dispatch, or by a completion's
`finally`), or the settlement of one in-flight execution. -/
inductive Step : Pool → Pool → Prop where
  | start (p : Pool) : p.active = false → Step p (startF p)
  | pause (p : Pool) : p.active = true → Step p (pauseF p)
  | enq (p : Pool) (t : TaskM) : Step p (enqueueF p t)
  | deq (p : Pool) : Step p (dequeueF p)
  | complete (p : Pool) (i : Nat) (oc : CompOutcome) :
      i < p.inFlight.length → Step p (completeF p i oc)

/-- States of the dispatcher reachable from a freshly constructed pool. -/
inductive Reachable : Pool → Prop where
  | init (cfg : PoolConfig) (facts : List String) : Reachable (initPool cfg facts)
  | step {p q : Pool} : Reachable p → Step p q → Reachable q

/-- Modelled from the spec: the least-recently-idle live runner whose name
differs from the requested one — among the idle runners of a different
name, the one whose (ghost) `idleSince` timestamp is smallest, i.e. that
has been idle for the longest.  The source tracks no such timestamp; this
definition exists only to compare the spec's eviction choice with the
code's. -/
def specLeastRecentlyIdle (runners : List RunnerM) (name : String) : Option RunnerM :=
  (runners.filter (fun r => !r.busy && r.name != name)).foldl
    (fun acc r =>
      match acc with
      | none => some r
      | some a => if r.idleSince < a.idleSince then some r else some a)
    none

/-- Default configuration: concurrency 10, no retries, unbounded runner
budget. -/
def cfgD : PoolConfig := {}

/-- A task for the single registered executor class `A`. -/
def taskA : TaskM := { name := "A", payload := 0, executionCount := 0 }

/-- Trace: enqueue one task, start, dispatch it, let it succeed, and let
the completion-triggered `#dequeue` find the queue empty. -/
def tp0 : Pool := initPool cfgD ["A"]

def tp1 : Pool := enqueueF tp0 taskA

def tp2 : Pool := startF tp1

def tp3 : Pool := dequeueF tp2

def tp4 : Pool := completeF tp3 0 .success

def tp5 : Pool := dequeueF tp4

def tp6 : Pool := pauseF tp5

/-- Configuration with a one-task runner budget. -/
def cfg1 : PoolConfig := { maximumTaskPerRunner := some 1 }

/-- Trace: with `maximumTaskPerRunner = 1`, run one task to completion;
the completion retires the runner. -/
def tq0 : Pool := initPool cfg1 ["A"]

def tq1 : Pool := enqueueF tq0 taskA

def tq2 : Pool := startF tq1

def tq3 : Pool := dequeueF tq2

def tq4 : Pool := completeF tq3 0 .success

/-- Configuration with `maximumRetries = 2`. -/
def cfg2 : PoolConfig := { maximumRetries := 2 }

/-- Trace: with `maximumRetries = 2`, a task that always fails with a
retryable error.  The first failure is re-enqueued silently; the second
already satisfies `executionCount < maximumRetries = false` and is
reported terminal — two attempts in total. -/
def tr0 : Pool := initPool cfg2 ["A"]

def tr1 : Pool := enqueueF tr0 taskA

def tr2 : Pool := startF tr1

def tr3 : Pool := dequeueF tr2

def tr4 : Pool := completeF tr3 0 (.failure true)

def tr5 : Pool := dequeueF tr4

def tr6 : Pool := completeF tr5 0 (.failure true)

/-- Removing a known non-matching member strictly shrinks a filtered
list. -/
theorem length_filter_lt {α : Type} (p : α → Bool) :
    ∀ (l : List α) (a : α), a ∈ l → p a = false → (l.filter p).length < l.length := by
  intro l
  induction l with
  | nil => intro a h; cases h
  | cons b bs ih =>
    intro a ha hpa
    rcases List.mem_cons.mp ha with h | h
    · subst h
      rw [List.filter_cons, hpa]
      exact Nat.lt_succ_of_le (List.length_filter_le p bs)
    · by_cases hb : p b
      · rw [List.filter_cons, hb]
        simpa using Nat.succ_lt_succ (ih a h hpa)
      · rw [List.filter_cons, if_neg hb]
        exact Nat.lt_succ_of_lt (ih a h hpa)

/-- The eviction sub-list of `#getRunner` is strictly shorter: the evicted
runner itself no longer passes the identity filter. -/
theorem evict_shrinks (runners : List RunnerM) (name : String) (ir : RunnerM)
    (h : (runners.filter (fun r => !r.busy)).find? (fun r => r.name != name) = some ir) :
    (runners.filter (fun x => x.rid ≠ ir.rid)).length < runners.length := by
  have hmem : ir ∈ runners :=
    List.mem_of_mem_filter (List.mem_of_find?_eq_some h)
  exact length_filter_lt _ runners ir hmem (by simp)

/-- `getRunnerAux` does not depend on the fuel once the fuel exceeds the
list length: the recursion consumes one list element per fuel unit. -/
theorem getRunnerAux_fuel (facts : List String) (cap nid clock : Nat) (name : String) :
    ∀ (f1 : Nat) (runners : List RunnerM) (f2 : Nat),
      runners.length < f1 → runners.length < f2 →
      getRunnerAux facts cap nid clock name f1 runners
        = getRunnerAux facts cap nid clock name f2 runners := by
  intro f1
  induction f1 with
  | zero => intro runners f2 h1 _; exact absurd h1 (Nat.not_lt_zero _)
  | succ f ih =>
    intro runners f2 h1 h2
    cases f2 with
    | zero => exact absurd h2 (Nat.not_lt_zero _)
    | succ g =>
      simp only [getRunnerAux]
      cases hf : (runners.filter (fun r => !r.busy)).find? (fun r => r.name == name) with
      | some r => rfl
      | none =>
        by_cases hc : runners.length < cap
        · simp [hc]
        · simp only [hc, if_neg, ite_false]
          cases hf2 : (runners.filter (fun r => !r.busy)).find? (fun r => r.name != name) with
          | none => rfl
          | some ir =>
            have hlt := evict_shrinks runners name ir hf2
            have hs1 : (runners.filter (fun x => x.rid ≠ ir.rid)).length < f :=
              Nat.lt_of_lt_of_le hlt (Nat.lt_succ_iff.mp h1)
            have hs2 : (runners.filter (fun x => x.rid ≠ ir.rid)).length < g :=
              Nat.lt_of_lt_of_le hlt (Nat.lt_succ_iff.mp h2)
            dsimp only
            rw [ih _ g hs1 hs2]

/-- `#getRunner` never grows the live set beyond the concurrency cap: it
creates a runner only below the cap, and evicts before recursing at the
cap. -/
theorem getRunnerAux_runners_le (facts : List String) (cap nid clock : Nat) (name : String) :
    ∀ (fuel : Nat) (runners : List RunnerM), runners.length ≤ cap →
      (getRunnerAux facts cap nid clock name fuel runners).runners.length ≤ cap := by
  intro fuel
  induction fuel with
  | zero => intro runners h; simpa [getRunnerAux] using h
  | succ f ih =>
    intro runners h
    simp only [getRunnerAux]
    cases hf : (runners.filter (fun r => !r.busy)).find? (fun r => r.name == name) with
    | some r => simpa using h
    | none =>
      by_cases hc : runners.length < cap
      · by_cases hw : name ∈ facts
        · simp [hc, hw]
          exact hc
        · simp [hc, hw]
          exact h
      · simp only [hc, ite_false]
        cases hf2 : (runners.filter (fun r => !r.busy)).find? (fun r => r.name != name) with
        | none => simpa using h
        | some ir =>
          dsimp only
          exact ih _ (Nat.le_trans (Nat.le_of_lt (evict_shrinks runners name ir hf2)) h)

/-- Every runner disposed by `#getRunner` was idle when selected: the
eviction candidates are drawn from the idle filter. -/
theorem getRunnerAux_disposed_idle (facts : List String) (cap nid clock : Nat) (name : String) :
    ∀ (fuel : Nat) (runners : List RunnerM) (r : RunnerM),
      r ∈ (getRunnerAux facts cap nid clock name fuel runners).disposedNow →
      r.busy = false := by
  intro fuel
  induction fuel with
  | zero => intro runners r h; simp [getRunnerAux] at h
  | succ f ih =>
    intro runners r h
    simp only [getRunnerAux] at h
    revert h
    cases hf : (runners.filter (fun r => !r.busy)).find? (fun r => r.name == name) with
    | some rr => intro h; simp at h
    | none =>
      by_cases hc : runners.length < cap
      · by_cases hw : name ∈ facts
        · intro h; simp [hc, hw] at h
        · intro h; simp [hc, hw] at h
      · simp only [hc, ite_false]
        cases hf2 : (runners.filter (fun r => !r.busy)).find? (fun r => r.name != name) with
        | none => intro h; simp at h
        | some ir =>
          dsimp only
          intro h
          rcases List.mem_cons.mp h with h | h
          · subst h
            have := List.find?_some hf2
            have hmem := List.mem_of_find?_eq_some hf2
            have hidle := List.mem_filter.mp hmem
            simpa using hidle.2
          · exact ih _ r h

/-- `#disposeIdleRunners` leaves the configuration untouched. -/
theorem disposeIdle_cfg (p : Pool) : (disposeIdleRunnersF p).cfg = p.cfg := by
  unfold disposeIdleRunnersF
  dsimp only
  split <;> rfl

/-- `#disposeIdleRunners` only removes runners. -/
theorem disposeIdle_len (p : Pool) :
    (disposeIdleRunnersF p).runners.length ≤ p.runners.length := by
  unfold disposeIdleRunnersF
  dsimp only
  split <;> exact List.length_filter_le _ _

/-- Every runner newly recorded as disposed by `#disposeIdleRunners` was
idle. -/
theorem disposeIdle_disposed (p : Pool) (r : RunnerM) :
    r ∈ (disposeIdleRunnersF p).disposed → r ∈ p.disposed ∨ r.busy = false := by
  unfold disposeIdleRunnersF
  dsimp only
  split <;> intro h <;>
    rcases List.mem_append.mp h with h | h
  · exact Or.inl h
  · exact Or.inr (by simpa using (List.mem_filter.mp h).2)
  · exact Or.inl h
  · exact Or.inr (by simpa using (List.mem_filter.mp h).2)

/-- `#disposeIdleRunners` either keeps the state or enters `drained` with
an emptied live set. -/
theorem disposeIdle_state (p : Pool) :
    (disposeIdleRunnersF p).state = p.state ∨
      ((disposeIdleRunnersF p).state = .drained ∧ (disposeIdleRunnersF p).runners = []) := by
  unfold disposeIdleRunnersF
  dsimp only
  split
  · next h => exact Or.inr ⟨rfl, List.length_eq_zero.mp h⟩
  · exact Or.inl rfl

/-- The `enqueue` tail touches only the queue, the chain flag and the
state. -/
theorem reenq_fields (p : Pool) (t : TaskM) :
    (reenqueueF p t).runners = p.runners ∧ (reenqueueF p t).cfg = p.cfg ∧
      (reenqueueF p t).disposed = p.disposed ∧ (reenqueueF p t).inFlight = p.inFlight := by
  unfold reenqueueF
  dsimp only
  split
  · split <;> exact ⟨rfl, rfl, rfl, rfl⟩
  · exact ⟨rfl, rfl, rfl, rfl⟩

/-- The `enqueue` tail keeps the state or moves it to `running`. -/
theorem reenq_state (p : Pool) (t : TaskM) :
    (reenqueueF p t).state = p.state ∨ (reenqueueF p t).state = .running := by
  unfold reenqueueF
  dsimp only
  split
  · split
    · exact Or.inl rfl
    · exact Or.inr rfl
  · exact Or.inl rfl

/-- Cap preservation, lifted to `getRunner`. -/
theorem getRunner_runners_le (facts : List String) (cap nid clock : Nat)
    (runners : List RunnerM) (name : String) (h : runners.length ≤ cap) :
    (getRunner facts cap nid clock runners name).runners.length ≤ cap :=
  getRunnerAux_runners_le facts cap nid clock name _ runners h

/-- Idleness of disposals, lifted to `getRunner`. -/
theorem getRunner_disposed_idle (facts : List String) (cap nid clock : Nat)
    (runners : List RunnerM) (name : String) (r : RunnerM)
    (h : r ∈ (getRunner facts cap nid clock runners name).disposedNow) :
    r.busy = false :=
  getRunnerAux_disposed_idle facts cap nid clock name _ runners r h

/-- One `#dequeue` invocation leaves the configuration untouched. -/
theorem dequeue_cfg (p : Pool) : (dequeueF p).cfg = p.cfg := by
  unfold dequeueF
  dsimp only
  split
  · split
    · rw [disposeIdle_cfg]
    · rfl
  · split
    · split <;> rfl
    · split <;> rfl

/-- One `#dequeue` invocation keeps the live set within the cap. -/
theorem dequeue_len (p : Pool) (h : p.runners.length ≤ p.cfg.concurrency) :
    (dequeueF p).runners.length ≤ p.cfg.concurrency := by
  unfold dequeueF
  dsimp only
  split
  · split
    · exact Nat.le_trans (disposeIdle_len _) h
    · exact h
  · split
    · split <;> exact h
    · split
      · exact getRunner_runners_le _ _ _ _ _ _ h
      · exact h
      · rw [List.length_map]
        exact getRunner_runners_le _ _ _ _ _ _ h
      · rw [List.length_map]
        exact getRunner_runners_le _ _ _ _ _ _ h

/-- One `#dequeue` invocation disposes only idle runners. -/
theorem dequeue_disposed (p : Pool) (r : RunnerM) :
    r ∈ (dequeueF p).disposed → r ∈ p.disposed ∨ r.busy = false := by
  unfold dequeueF
  dsimp only
  split
  · split
    · intro h
      have h2 := disposeIdle_disposed _ r h
      exact h2
    · intro h; exact Or.inl h
  · split
    · split <;> (intro h; exact Or.inl h)
    · split
      · intro h
        rcases List.mem_append.mp h with h | h
        · exact Or.inl h
        · exact Or.inr (getRunner_disposed_idle _ _ _ _ _ _ r h)
      · intro h; exact Or.inl h
      · intro h
        rcases List.mem_append.mp h with h | h
        · exact Or.inl h
        · exact Or.inr (getRunner_disposed_idle _ _ _ _ _ _ r h)
      · intro h
        rcases List.mem_append.mp h with h | h
        · exact Or.inl h
        · exact Or.inr (getRunner_disposed_idle _ _ _ _ _ _ r h)

/-- One `#dequeue` invocation either keeps the state, or enters `drained`
with every live runner idle. -/
theorem dequeue_state (p : Pool) :
    (dequeueF p).state = p.state ∨
      ((dequeueF p).state = .drained ∧
        (dequeueF p).runners.all (fun r => !r.busy) = true) := by
  unfold dequeueF
  dsimp only
  split
  · split
    · rcases disposeIdle_state _ with h | ⟨h1, h2⟩
      · exact Or.inl h
      · exact Or.inr ⟨h1, by rw [h2]; rfl⟩
    · exact Or.inl rfl
  · split
    · split
      · next hall => exact Or.inr ⟨rfl, hall⟩
      · exact Or.inl rfl
    · split
      · exact Or.inl rfl
      · exact Or.inl rfl
      · exact Or.inl rfl
      · exact Or.inl rfl

/-- The `.then` handlers only touch the finished log, the queue and the
chain flag / state. -/
theorem finishOrRetry_fields (p1 : Pool) (t : TaskM) (oc : CompOutcome) :
    (finishOrRetry p1 t oc).runners = p1.runners ∧
      (finishOrRetry p1 t oc).cfg = p1.cfg ∧
      (finishOrRetry p1 t oc).disposed = p1.disposed := by
  unfold finishOrRetry
  cases oc with
  | success => exact ⟨rfl, rfl, rfl⟩
  | failure rb =>
    dsimp only
    split
    · obtain ⟨h1, h2, h3, _⟩ := reenq_fields p1 t
      exact ⟨h1, h2, h3⟩
    · exact ⟨rfl, rfl, rfl⟩

/-- The `.then` handlers keep the state or move it to `running`. -/
theorem finishOrRetry_state (p1 : Pool) (t : TaskM) (oc : CompOutcome) :
    (finishOrRetry p1 t oc).state = p1.state ∨
      (finishOrRetry p1 t oc).state = .running := by
  unfold finishOrRetry
  cases oc with
  | success => exact Or.inl rfl
  | failure rb =>
    dsimp only
    split
    · exact reenq_state p1 t
    · exact Or.inl rfl

/-- The retirement check never grows the live set. -/
theorem retire_len (q : Pool) (rid : Nat) :
    (retireF q rid).runners.length ≤ q.runners.length := by
  unfold retireF
  split
  · split
    · split
      · exact List.length_filter_le _ _
      · exact Nat.le_refl _
    · exact Nat.le_refl _
  · exact Nat.le_refl _

/-- The retirement check only touches the live set. -/
theorem retire_fields (q : Pool) (rid : Nat) :
    (retireF q rid).cfg = q.cfg ∧ (retireF q rid).disposed = q.disposed ∧
      (retireF q rid).state = q.state := by
  unfold retireF
  split
  · split
    · split
      · exact ⟨rfl, rfl, rfl⟩
      · exact ⟨rfl, rfl, rfl⟩
    · exact ⟨rfl, rfl, rfl⟩
  · exact ⟨rfl, rfl, rfl⟩

/-- A completion step preserves the configuration and the disposal log,
never grows the live set, and keeps the state except for the retry
trigger's move to `running`. -/
theorem complete_fields (p : Pool) (i : Nat) (oc : CompOutcome) :
    (completeF p i oc).cfg = p.cfg ∧ (completeF p i oc).disposed = p.disposed ∧
      (completeF p i oc).runners.length ≤ p.runners.length ∧
      ((completeF p i oc).state = p.state ∨ (completeF p i oc).state = .running) := by
  unfold completeF
  dsimp only
  split
  · exact ⟨rfl, rfl, Nat.le_refl _, Or.inl rfl⟩
  · next t rid _ =>
    obtain ⟨hc, hd, hs⟩ := retire_fields (finishOrRetry
      { p with clock := p.clock + 1,
               runners := settleRunners p.runners rid (p.clock + 1) oc,
               inFlight := p.inFlight.eraseIdx i } t oc) rid
    obtain ⟨fr, fc, fd⟩ := finishOrRetry_fields
      { p with clock := p.clock + 1,
               runners := settleRunners p.runners rid (p.clock + 1) oc,
               inFlight := p.inFlight.eraseIdx i } t oc
    refine ⟨by rw [hc, fc], by rw [hd, fd], ?_, ?_⟩
    · calc (retireF _ rid).runners.length
          ≤ (finishOrRetry _ t oc).runners.length := retire_len _ rid
        _ = (settleRunners p.runners rid (p.clock + 1) oc).length := by rw [fr]
        _ = p.runners.length := List.length_map _ _
    · rcases finishOrRetry_state
        { p with clock := p.clock + 1,
                 runners := settleRunners p.runners rid (p.clock + 1) oc,
                 inFlight := p.inFlight.eraseIdx i } t oc with h | h
      · exact Or.inl (by rw [hs, h])
      · exact Or.inr (by rw [hs, h])

/-- C4: in every reachable state of the dispatcher, the number of runners
in the live set is at most the configured concurrency cap — every
operation (runner creation in `#getRunner`, eviction, retirement in the
completion handler, disposal while draining) preserves
`live-runner-count ≤ concurrency`. -/
theorem live_runners_le_concurrency : ∀ (p : Pool), Reachable p →
    p.runners.length ≤ p.cfg.concurrency := by
  intro p h
  induction h with
  | init cfg facts => exact Nat.zero_le _
  | @step q q2 hp hs ih =>
    cases hs with
    | start hq => simpa [startF] using ih
    | pause hq =>
      have h1 := disposeIdle_len { q with active := false, state := .draining }
      have h2 := disposeIdle_cfg { q with active := false, state := .draining }
      unfold pauseF
      rw [h2]
      exact Nat.le_trans h1 ih
    | enq t =>
      obtain ⟨h1, h2, _, _⟩ := reenq_fields q { t with executionCount := 0 }
      unfold enqueueF
      rw [h1, h2]
      exact ih
    | deq =>
      rw [dequeue_cfg]
      exact dequeue_len q ih
    | complete i oc hi =>
      obtain ⟨h1, _, h3, _⟩ := complete_fields q i oc
      rw [h1]
      exact Nat.le_trans h3 ih

/-- C9: in every reachable state, every runner ever passed to `dispose()`
was idle at the moment of disposal — the disposal paths (pause draining,
the dequeue loop's drain re-check, and `#getRunner` eviction) select only
runners whose busy flag is false. -/
theorem disposed_runners_were_idle : ∀ (p : Pool), Reachable p →
    ∀ r ∈ p.disposed, r.busy = false := by
  intro p h
  induction h with
  | init cfg facts => intro r hr; simp [initPool] at hr
  | @step q q2 hp hs ih =>
    cases hs with
    | start hq => intro r hr; exact ih r hr
    | pause hq =>
      intro r hr
      rcases disposeIdle_disposed _ r hr with h | h
      · exact ih r h
      · exact h
    | enq t =>
      intro r hr
      obtain ⟨_, _, h3, _⟩ := reenq_fields q { t with executionCount := 0 }
      exact ih r (by rw [← h3]; exact hr)
    | deq =>
      intro r hr
      rcases dequeue_disposed q r hr with h | h
      · exact ih r h
      · exact h
    | complete i oc hi =>
      intro r hr
      obtain ⟨_, h2, _, _⟩ := complete_fields q i oc
      exact ih r (by rw [← h2]; exact hr)

/-- C2 (amended): every transition that newly enters `drained` does so
with every live runner idle — but not necessarily with an empty live set,
nor an empty queue: `drained` is entered either by a dequeue that found no
task while all runners are idle (idle runners remain live), or by a
dispose-idle-runners pass that emptied the live set. -/
theorem drained_entry_all_idle : ∀ (p q : Pool), Step p q →
    p.state ≠ .drained → q.state = .drained →
    q.runners.all (fun r => !r.busy) = true := by
  intro p q hs h1 h2
  cases hs with
  | start hq => simp [startF] at h2
  | pause hq =>
    unfold pauseF at h2 ⊢
    rcases disposeIdle_state { p with active := false, state := .draining } with h | ⟨ha, hb⟩
    · rw [h] at h2
      simp at h2
    · rw [hb]
      rfl
  | enq t =>
    rcases reenq_state p { t with executionCount := 0 } with h | h
    · exact absurd (h.symm.trans h2) h1
    · have hrd : WState.running = WState.drained := h.symm.trans h2
      exact absurd hrd (by decide)
  | deq =>
    rcases dequeue_state p with h | ⟨ha, hb⟩
    · exact absurd (h.symm.trans h2) h1
    · exact hb
  | complete i oc hi =>
    rcases (complete_fields p i oc).2.2.2 with h | h
    · exact absurd (h.symm.trans h2) h1
    · have hrd : WState.running = WState.drained := h.symm.trans h2
      exact absurd hrd (by decide)

/-- The success trace is a genuine run of the dispatcher. -/
theorem reach_tp5 : Reachable tp5 := by
  have h0 : Reachable tp0 := Reachable.init cfgD ["A"]
  have h1 : Reachable tp1 := h0.step (Step.enq tp0 taskA)
  have h2 : Reachable tp2 := h1.step (Step.start tp1 (by decide))
  have h3 : Reachable tp3 := h2.step (Step.deq tp2)
  have h4 : Reachable tp4 := h3.step (Step.complete tp3 0 .success (by decide))
  exact h4.step (Step.deq tp4)

/-- Pausing the drained-but-not-empty pool is a genuine next step. -/
theorem reach_tp6 : Reachable tp6 := reach_tp5.step (Step.pause tp5 (by decide))

/-- The retirement trace is a genuine run of the dispatcher. -/
theorem reach_tq4 : Reachable tq4 := by
  have h0 : Reachable tq0 := Reachable.init cfg1 ["A"]
  have h1 : Reachable tq1 := h0.step (Step.enq tq0 taskA)
  have h2 : Reachable tq2 := h1.step (Step.start tq1 (by decide))
  have h3 : Reachable tq3 := h2.step (Step.deq tq2)
  exact h3.step (Step.complete tq3 0 .success (by decide))

/-- The retry trace is a genuine run of the dispatcher. -/
theorem reach_tr6 : Reachable tr6 := by
  have h0 : Reachable tr0 := Reachable.init cfg2 ["A"]
  have h1 : Reachable tr1 := h0.step (Step.enq tr0 taskA)
  have h2 : Reachable tr2 := h1.step (Step.start tr1 (by decide))
  have h3 : Reachable tr3 := h2.step (Step.deq tr2)
  have h4 : Reachable tr4 := h3.step (Step.complete tr3 0 (.failure true) (by decide))
  have h5 : Reachable tr5 := h4.step (Step.deq tr4)
  exact h5.step (Step.complete tr5 0 (.failure true) (by decide))

/-- C1: with `maximumRetries = 2` and an executor that always fails with a
retryable error, the code performs exactly TWO attempts, not three: the
first failure (executionCount 1 < 2) is re-enqueued silently, and the
second failure (executionCount 2, `2 < 2` is false) is immediately
reported terminal through `onTaskFinished`.  The retry guard
`task.executionCount < maximumRetries` compares the post-increment
attempt counter against the retry count, so `maximumRetries = k` yields
`max k 1` attempts instead of the documented `k + 1`. -/
theorem retry_budget_two_attempts :
    Reachable tr6 ∧ tr0.cfg.maximumRetries = 2 ∧
      tr3.inFlight = [({ name := "A", payload := 0, executionCount := 1 }, 0)] ∧
      tr4.finished = [] ∧
      tr4.queue = [{ name := "A", payload := 0, executionCount := 1 }] ∧
      tr5.inFlight = [({ name := "A", payload := 0, executionCount := 2 }, 0)] ∧
      tr6.finished = [(true, { name := "A", payload := 0, executionCount := 2 })] ∧
      tr6.queue = [] ∧ tr6.inFlight = [] :=
  ⟨reach_tr6, by decide, by decide, by decide, by decide, by decide, by decide,
    by decide, by decide⟩

/-- C2 counterexample: a reachable state whose lifecycle state is
`drained` while a runner is still in the live set — after a task
succeeds and the completion-triggered `#dequeue` finds the queue empty,
the now-idle runner remains live but the state is set to `drained`
(src/Workerpool.ts lines 208-217, which check idleness, not emptiness). -/
theorem drained_with_live_runner :
    Reachable tp5 ∧ tp5.state = WState.drained ∧ tp5.runners ≠ [] :=
  ⟨reach_tp5, by decide, by decide⟩

/-- Witness for the amended C2 theorem at the concrete entering step. -/
theorem drained_entry_all_idle_witness :
    tp4.state ≠ WState.drained ∧ tp5.state = WState.drained ∧
      tp5.runners.all (fun r => !r.busy) = true :=
  ⟨by decide, by decide,
    drained_entry_all_idle tp4 tp5 (Step.deq tp4) (by decide) (by decide)⟩

/-- Witness for C4 at a concrete reachable state holding one runner. -/
theorem live_runners_le_concurrency_witness :
    tp5.runners.length = 1 ∧ tp5.runners.length ≤ tp5.cfg.concurrency :=
  ⟨by decide, live_runners_le_concurrency tp5 reach_tp5⟩

/-- Witness for C9 at a concrete reachable state with one disposal. -/
theorem disposed_runners_were_idle_witness :
    tp6.disposed.length = 1 ∧ ∀ r ∈ tp6.disposed, r.busy = false :=
  ⟨by decide, disposed_runners_were_idle tp6 reach_tp6⟩

/-- C5 counterexample: with `maximumTaskPerRunner = 1`, a reachable
completion removes the exhausted runner from the live set, yet the
disposal log stays empty — the `.finally` handler only calls
`this.#runners.delete(runner)` and never `runner.dispose()`
(src/Workerpool.ts lines 246-252). -/
theorem retired_runner_not_disposed :
    Reachable tq4 ∧ tq3.cfg.maximumTaskPerRunner = some 1 ∧
      tq3.runners.length = 1 ∧ tq4 = completeF tq3 0 CompOutcome.success ∧
      tq4.runners = [] ∧ tq4.disposed = [] :=
  ⟨reach_tq4, by decide, by decide, rfl, by decide, by decide⟩

/-- Settling an execution does not change runner identities. -/
theorem settle_rid_map (rs : List RunnerM) (rid clock : Nat) (oc : CompOutcome) :
    (settleRunners rs rid clock oc).map RunnerM.rid = rs.map RunnerM.rid := by
  unfold settleRunners
  rw [List.map_map]
  apply List.map_congr_left
  intro x _
  by_cases h : x.rid = rid <;> cases oc <;> simp [h]

/-- After the retirement check, no runner with the completed identity
survives in the live set unless its execution count is still below the
budget (runner identities assumed distinct, as JS object identities
are). -/
theorem retire_no_surviving_rid (q : Pool) (rid m : Nat)
    (hnd : (q.runners.map RunnerM.rid).Nodup)
    (hm : q.cfg.maximumTaskPerRunner = some m) :
    ∀ r ∈ (retireF q rid).runners, r.rid = rid → r.executionnCount < m := by
  intro r hr hrid
  unfold retireF at hr
  cases hf : q.runners.find? (fun x => x.rid == rid) with
  | none =>
    rw [hf] at hr
    have := List.find?_eq_none.mp hf r hr
    simp [hrid] at this
  | some r0 =>
    rw [hf, hm] at hr
    dsimp only at hr
    by_cases hle : m ≤ r0.executionnCount
    · rw [if_pos hle] at hr
      have := (List.mem_filter.mp hr).2
      simp [hrid] at this
    · rw [if_neg hle] at hr
      have h0mem := List.mem_of_find?_eq_some hf
      have h0rid : r0.rid = rid := by simpa using List.find?_some hf
      have hrr : r = r0 :=
        List.inj_on_of_nodup_map hnd hr h0mem (by
          show r.rid = r0.rid
          rw [hrid, h0rid])
      rw [hrr]
      exact Nat.lt_of_not_le hle

/-- C5 (amended): when a completed execution has driven the runner's
`executionCount` up to `maximumTaskPerRunner`, the dispatcher removes the
runner from the live set but does NOT invoke its dispose hook: the
disposal log is unchanged by every completion, and no runner with the
completed identity whose count reached the budget survives. -/
theorem complete_retires_without_dispose :
    ∀ (p : Pool) (i : Nat) (oc : CompOutcome),
      (p.runners.map RunnerM.rid).Nodup →
      (completeF p i oc).disposed = p.disposed ∧
      (∀ r ∈ (completeF p i oc).runners, ∀ t rid, p.inFlight[i]? = some (t, rid) →
        r.rid = rid → ∀ m, p.cfg.maximumTaskPerRunner = some m →
        r.executionnCount < m) := by
  intro p i oc hnd
  refine ⟨(complete_fields p i oc).2.1, ?_⟩
  intro r hr t rid hif hrid m hm
  unfold completeF at hr
  dsimp only at hr
  rw [hif] at hr
  dsimp only at hr
  refine retire_no_surviving_rid _ rid m ?_ ?_ r hr hrid
  · rw [(finishOrRetry_fields _ t oc).1]
    dsimp only
    rw [settle_rid_map]
    exact hnd
  · rw [(finishOrRetry_fields _ t oc).2.1]
    exact hm

/-- Witness for the amended C5 theorem: the retirement completion of the
concrete trace leaves the disposal log unchanged. -/
theorem complete_retires_without_dispose_witness :
    tq4.disposed = tq3.disposed :=
  (complete_retires_without_dispose tq3 0 CompOutcome.success (by decide)).1

/-- The retryable flag `Runner.execute` derives from the failure hook
(`retryable ?? true`): the hook's boolean, and true when the hook is
absent or returns nothing. -/
def FailureHookBehavior.retryableOf : FailureHookBehavior → Bool
  | .absent => true
  | .returns ob => ob.getD true
  | .throws _ => true

/-- An executor behaviour throwing a non-Error value. -/
def bNE : Behavior Nat :=
  { execute := .throws (.nonError 7), onSuccess := .absent,
    onFailure := .returns (some false) }

/-- A fresh idle runner state. -/
def st0 : Runner := { name := "A" }

/-- C6 counterexample: a non-`Error` value thrown by the executor's
`execute` is re-raised unwrapped (the `catch` block starts with
`if (!(error instanceof Error)) throw error`): the outcome is the raw
value, not a `RunnerExecutionError`, and `failureCount` is not
incremented even though an `onFailure` hook is installed. -/
theorem nonError_not_wrapped :
    (Runner.execute bNE st0).1 = ExecOutcome.raised (Thrown.nonError 7) ∧
      (Runner.execute bNE st0).2.failureCount = 0 :=
  ⟨by decide, by decide⟩

/-- Behaviour of an executor whose `execute` throws
`Error{message := msg, name := nm}`, with given hooks. -/
def errBehavior (R : Type) (msg nm : String) (os : SuccessHookBehavior)
    (fh : FailureHookBehavior) : Behavior R :=
  { execute := .throws (.errorVal msg nm), onSuccess := os, onFailure := fh }

/-- C6 (amended): for every `Error` thrown by the executor's `execute`
(when the failure hook does not itself throw), the runner increments
`failureCount`, consults `onFailure`, and fails with a
`RunnerExecutionError` carrying the original message and kind whose
retryable flag is the hook's boolean, defaulting to true when the hook is
absent or returns nothing; non-`Error` thrown values are re-raised
unwrapped without touching `failureCount`. -/
theorem runnerExecute_wraps_errors :
    ∀ (R : Type) (st : Runner) (msg nm : String) (os : SuccessHookBehavior)
      (fh : FailureHookBehavior),
      st.busy = false → (∀ t2, fh ≠ .throws t2) →
      (Runner.execute (errBehavior R msg nm os fh) st).1
        = ExecOutcome.runnerExecutionError msg nm fh.retryableOf ∧
      (Runner.execute (errBehavior R msg nm os fh) st).2.failureCount
        = st.failureCount + 1 := by
  intro R st msg nm os fh hb hft
  cases fh with
  | absent =>
    simp [Runner.execute, Runner.catchBlock, errBehavior, hb,
      FailureHookBehavior.retryableOf]
  | returns ob =>
    simp [Runner.execute, Runner.catchBlock, errBehavior, hb,
      FailureHookBehavior.retryableOf]
  | throws t2 => exact absurd rfl (hft t2)

/-- Witness for the amended C6 theorem at a concrete erroring executor. -/
theorem runnerExecute_wraps_errors_witness :
    (Runner.execute (errBehavior Nat "boom" "Error" .absent
        (.returns (some false))) st0).1
      = ExecOutcome.runnerExecutionError "boom" "Error" false ∧
    (Runner.execute (errBehavior Nat "boom" "Error" .absent
        (.returns (some false))) st0).2.failureCount = 1 := by
  have h := runnerExecute_wraps_errors Nat st0 "boom" "Error" .absent
    (.returns (some false)) rfl (fun t2 hc => FailureHookBehavior.noConfusion hc)
  exact ⟨h.1, h.2⟩

/-- C7: every `Runner.execute` call that passes the busy guard increments
`executionnCount` by exactly one and clears the busy flag, whatever the
executor and its hooks do — the `finally` clause runs on every exit
path. -/
theorem runnerExecute_finalizer :
    ∀ (R : Type) (b : Behavior R) (st : Runner), st.busy = false →
      (Runner.execute b st).2.executionnCount = st.executionnCount + 1 ∧
      (Runner.execute b st).2.busy = false := by
  intro R b st h
  obtain ⟨eb, os, fh⟩ := b
  cases eb with
  | ok r =>
    cases os with
    | throws t => cases t <;> cases fh <;> simp [Runner.execute, Runner.catchBlock, h]
    | absent => simp [Runner.execute, h]
    | ok => simp [Runner.execute, h]
  | throws t => cases t <;> cases fh <;> simp [Runner.execute, Runner.catchBlock, h]

/-- Witness for C7 at a concrete behaviour. -/
theorem runnerExecute_finalizer_witness :
    st0.busy = false ∧
      (Runner.execute bNE st0).2.executionnCount = st0.executionnCount + 1 ∧
      (Runner.execute bNE st0).2.busy = false :=
  ⟨rfl, (runnerExecute_finalizer Nat bNE st0 rfl).1,
    (runnerExecute_finalizer Nat bNE st0 rfl).2⟩

/-- A busy runner state. -/
def stB : Runner := { name := "A", busy := true }

/-- C8: calling `Runner.execute` on a busy runner fails with the
busy-guard error and returns the state unchanged — busy stays true and no
counter is incremented (the guard throws before the `try`, so not even
the finalizer runs). -/
theorem runnerExecute_busy_guard :
    ∀ (R : Type) (b : Behavior R) (st : Runner), st.busy = true →
      Runner.execute b st = (ExecOutcome.illegalState, st) := by
  intro R b st h
  simp [Runner.execute, h]

/-- Witness for C8 at a concrete busy runner. -/
theorem runnerExecute_busy_guard_witness :
    stB.busy = true ∧ Runner.execute bNE stB = (ExecOutcome.illegalState, stB) :=
  ⟨rfl, runnerExecute_busy_guard Nat bNE stB rfl⟩

/-- C10: a falsy numeric constructor option is silently replaced by its
default: `concurrency = 0` yields the default cap 10, `maximumRetries =
0` yields 0 (the default), `maximumTaskPerRunner = 0` yields the
unbounded default, because each option is applied only when truthy. -/
theorem constructor_falsy_defaults :
    ∀ (o : WorkerpoolOptions),
      (o.concurrency = some 0 → (Workerpool.constructorF o).1.concurrency = 10) ∧
      (o.maximumRetries = some 0 → (Workerpool.constructorF o).1.maximumRetries = 0) ∧
      (o.maximumTaskPerRunner = some 0 →
        (Workerpool.constructorF o).1.maximumTaskPerRunner = none) := by
  intro o
  unfold Workerpool.constructorF
  dsimp only
  refine ⟨?_, ?_, ?_⟩ <;> intro h <;> rw [h] <;> simp only [truthyOpt] <;>
    split <;> try split
  all_goals first
    | rfl
    | (split <;> rfl)
    | simp_all [truthyOpt]

/-- An options record with all numeric options set to the falsy 0. -/
def o0 : WorkerpoolOptions :=
  { workers := [], concurrency := some 0, maximumRetries := some 0,
    maximumTaskPerRunner := some 0 }

/-- Witness for C10 at the all-zero options record. -/
theorem constructor_falsy_defaults_witness :
    (Workerpool.constructorF o0).1.concurrency = 10 ∧
      (Workerpool.constructorF o0).1.maximumRetries = 0 ∧
      (Workerpool.constructorF o0).1.maximumTaskPerRunner = none :=
  ⟨(constructor_falsy_defaults o0).1 rfl, (constructor_falsy_defaults o0).2.1 rfl,
    (constructor_falsy_defaults o0).2.2 rfl⟩

/-- An idle runner of name `A`: inserted first into the live set, but
most recently idle (ghost `idleSince = 5`). -/
def rA : RunnerM :=
  { rid := 0, name := "A", busy := false, executionnCount := 1,
    successCount := 1, failureCount := 0, idleSince := 5 }

/-- An idle runner of name `B`: inserted second, but idle for longer
(ghost `idleSince = 3`). -/
def rB : RunnerM :=
  { rid := 1, name := "B", busy := false, executionnCount := 1,
    successCount := 1, failureCount := 0, idleSince := 3 }

/-- C3 counterexample: resolving name `C` on a full pool holding the idle
runners `[rA, rB]` evicts `rA` — the first idle runner of a different
name in the live set's insertion order — even though the
least-recently-idle such runner is `rB` (idle since 3 < 5).  `#getRunner`
tracks no idle recency; `idleRunners.find?` follows `Set` insertion
order. -/
theorem eviction_not_least_recently_idle :
    (getRunner ["A", "B", "C"] 2 2 9 [rA, rB] "C").disposedNow = [rA] ∧
      specLeastRecentlyIdle [rA, rB] "C" = some rB ∧ rA ≠ rB :=
  ⟨by decide, by decide, by decide⟩

/-- C3 (amended): the branch-by-branch behaviour of `#getRunner` for task
name `n`: (a) the first idle runner with a matching name is reused, live
set unchanged; (b) else, strictly below the concurrency cap, a fresh
runner is created from the registered factory and appended, and an
unregistered name throws the unknown-executable error; (c) else, the
first idle runner of a different name in the live set's insertion order
(not the least-recently-idle one) is disposed and removed, and resolution
recurses on the remaining set; (d) else no runner is returned and the
live set is unchanged. -/
theorem getRunner_resolution (facts : List String) (cap nid clock : Nat)
    (runners : List RunnerM) (name : String) :
    (∀ r, (runners.filter (fun x => !x.busy)).find? (fun x => x.name == name) = some r →
      getRunner facts cap nid clock runners name
        = { result := .found r, runners := runners, disposedNow := [], nextId := nid }) ∧
    ((runners.filter (fun x => !x.busy)).find? (fun x => x.name == name) = none →
      runners.length < cap → facts.contains name = true →
      getRunner facts cap nid clock runners name
        = { result := .created (newRunner nid name clock),
            runners := runners ++ [newRunner nid name clock],
            disposedNow := [], nextId := nid + 1 }) ∧
    ((runners.filter (fun x => !x.busy)).find? (fun x => x.name == name) = none →
      runners.length < cap → facts.contains name = false →
      getRunner facts cap nid clock runners name
        = { result := .unknownExecutor, runners := runners,
            disposedNow := [], nextId := nid }) ∧
    (∀ ir, (runners.filter (fun x => !x.busy)).find? (fun x => x.name == name) = none →
      cap ≤ runners.length →
      (runners.filter (fun x => !x.busy)).find? (fun x => x.name != name) = some ir →
      getRunner facts cap nid clock runners name
        = { result := (getRunner facts cap nid clock
              (runners.filter (fun x => x.rid ≠ ir.rid)) name).result,
            runners := (getRunner facts cap nid clock
              (runners.filter (fun x => x.rid ≠ ir.rid)) name).runners,
            disposedNow := ir :: (getRunner facts cap nid clock
              (runners.filter (fun x => x.rid ≠ ir.rid)) name).disposedNow,
            nextId := (getRunner facts cap nid clock
              (runners.filter (fun x => x.rid ≠ ir.rid)) name).nextId }) ∧
    ((runners.filter (fun x => !x.busy)).find? (fun x => x.name == name) = none →
      cap ≤ runners.length →
      (runners.filter (fun x => !x.busy)).find? (fun x => x.name != name) = none →
      getRunner facts cap nid clock runners name
        = { result := .noRunner, runners := runners,
            disposedNow := [], nextId := nid }) := by
  refine ⟨?_, ?_, ?_, ?_, ?_⟩
  · intro r hfr
    simp only [getRunner, getRunnerAux, hfr]
  · intro hfr hlt hw
    have hw2 : name ∈ facts := by simpa using hw
    simp only [getRunner, getRunnerAux, hfr]
    simp [hlt, hw2]
  · intro hfr hlt hw
    have hw2 : name ∉ facts := by simpa using hw
    simp only [getRunner, getRunnerAux, hfr]
    simp [hlt, hw2]
  · intro ir hfr hge hfd
    have hnl : ¬ runners.length < cap := Nat.not_lt.mpr hge
    have hlt := evict_shrinks runners name ir hfd
    have hstep :
        getRunner facts cap nid clock runners name
          = { result := (getRunnerAux facts cap nid clock name runners.length
                (runners.filter (fun x => x.rid ≠ ir.rid))).result,
              runners := (getRunnerAux facts cap nid clock name runners.length
                (runners.filter (fun x => x.rid ≠ ir.rid))).runners,
              disposedNow := ir :: (getRunnerAux facts cap nid clock name runners.length
                (runners.filter (fun x => x.rid ≠ ir.rid))).disposedNow,
              nextId := (getRunnerAux facts cap nid clock name runners.length
                (runners.filter (fun x => x.rid ≠ ir.rid))).nextId } := by
      simp only [getRunner, getRunnerAux, hfr, hnl, ite_false, hfd]
    rw [hstep]
    rw [getRunnerAux_fuel facts cap nid clock name runners.length
      (runners.filter (fun x => x.rid ≠ ir.rid))
      ((runners.filter (fun x => x.rid ≠ ir.rid)).length + 1) hlt (Nat.lt_succ_self _)]
    rfl
  · intro hfr hge hfd
    have hnl : ¬ runners.length < cap := Nat.not_lt.mpr hge
    simp only [getRunner, getRunnerAux, hfr, hnl, ite_false, hfd]

/-- Witness for the amended C3 theorem: branch (a) at a matching idle
runner, and branch (c) at the two-runner eviction configuration. -/
theorem getRunner_resolution_witness :
    getRunner ["A"] 1 5 0 [rA] "A"
      = { result := .found rA, runners := [rA], disposedNow := [], nextId := 5 } ∧
    getRunner ["A", "B", "C"] 2 2 9 [rA, rB] "C"
      = { result := (getRunner ["A", "B", "C"] 2 2 9 [rB] "C").result,
          runners := (getRunner ["A", "B", "C"] 2 2 9 [rB] "C").runners,
          disposedNow := rA :: (getRunner ["A", "B", "C"] 2 2 9 [rB] "C").disposedNow,
          nextId := (getRunner ["A", "B", "C"] 2 2 9 [rB] "C").nextId } := by
  constructor
  · exact (getRunner_resolution ["A"] 1 5 0 [rA] "A").1 rA (by decide)
  · exact (getRunner_resolution ["A", "B", "C"] 2 2 9 [rA, rB] "C").2.2.2.1 rA
      (by decide) (by decide) (by decide)
